import Mathlib

/-!
Verification of the batch-splitting and sequential-execution logic of
`server/scripts/run-migration.py`.

The script reads a SQL file, splits it with `sql_content.split('GO')`
(a plain substring split), strips each fragment, keeps the non-empty
ones (line 39), and then executes them in a loop (lines 43-57) that
skips a batch when `not batch or batch.startswith('--')`, commits after
a successful execute-and-drain, and on any exception inside the try
prints the error and calls `conn.rollback()`.  The whole thing sits in
one big `try` whose handlers (lines 68-84) print manual fallback
instructions; `import pyodbc` itself is at line 5, before the `try`.

The embedding below mirrors those operations: Python `str.split('GO')`
becomes `splitGO` on `List Char`, Python `str.strip()` becomes `stripL`,
the execution loop becomes `execLoop` over an abstract connection whose
execute / drain / commit / rollback outcomes are given by a `Conn`
record (`none` = the call returns normally, `some e` = it raises with
message `e`), and the top-level control flow becomes `runMigration`.
-/

namespace Migration

/-- The characters Python's `str.strip()` removes (ASCII part; the
script only ever strips SQL text, so the exotic Unicode spaces play no
role in any claim). -/
def pyWS (c : Char) : Bool :=
  c == ' ' || c == '\t' || c == '\n' || c == '\r' || c == '\x0b' || c == '\x0c'

/-- Remove the leading whitespace, first half of Python `strip()`. -/
def dropWS (l : List Char) : List Char := l.dropWhile pyWS

/-- Remove the trailing whitespace, second half of Python `strip()`. -/
def dropWSEnd : List Char → List Char
  | [] => []
  | c :: rest =>
    match dropWSEnd rest with
    | [] => if pyWS c then [] else [c]
    | d :: r => c :: d :: r

/-- Python `str.strip()` on a character list. -/
def stripL (l : List Char) : List Char := dropWSEnd (dropWS l)

/-- Python `str.strip()` on a string. -/
def pyStrip (s : String) : String := String.mk (stripL s.toList)

/-- Python `str.split('GO')`: scan left to right, cut at every
(non-overlapping) occurrence of the two characters `G`,`O`.  `acc`
holds the current fragment reversed.  This is the split at line 39 of
the script, which is a substring split, not a line-based one. -/
def splitGOAux (acc : List Char) : List Char → List (List Char)
  | [] => [acc.reverse]
  | [c] => [(c :: acc).reverse]
  | c :: d :: rest =>
    if c = 'G' ∧ d = 'O' then
      acc.reverse :: splitGOAux [] rest
    else
      splitGOAux (c :: acc) (d :: rest)

/-- `sql_content.split('GO')` from line 39. -/
def splitGO (l : List Char) : List (List Char) := splitGOAux [] l

/-- Line 39: `[b.strip() for b in sql_content.split('GO') if b.strip()]`,
on character lists. -/
def splitBatchesL (l : List Char) : List (List Char) :=
  ((splitGO l).map stripL).filter (fun b => !b.isEmpty)

/-- Line 39 of the script, on strings: the batch list handed to the
execution loop. -/
def splitBatches (s : String) : List String := (splitBatchesL s.toList).map String.mk

/-- `pairOcc x y l` is true iff the two characters `x`,`y` occur
adjacently (in this order) somewhere in `l`; `pairOcc 'G' 'O' l` is
"the separator occurs in `l`" for the substring split of line 39. -/
def pairOcc (x y : Char) : List Char → Bool
  | [] => false
  | [_] => false
  | c :: d :: rest => decide (c = x ∧ d = y) || pairOcc x y (d :: rest)

/-- The script text contains the two-character sequence `GO`. -/
def containsGO (s : String) : Bool := pairOcc 'G' 'O' s.toList

/-- Split a text into its lines (at `\n`), used only by the
spec-side delimiter definition below. -/
def linesOf : List Char → List (List Char)
  | [] => [[]]
  | c :: rest =>
    if c = '\n' then [] :: linesOf rest
    else
      match linesOf rest with
      | [] => [[c]]
      | l :: ls => (c :: l) :: ls

/-- From the spec's words (section 4.1): a delimiter occurrence is a
case-sensitive match of the token `GO` standing alone on a line.  This
definition follows the spec, not the code, and exists only to compare
the two split semantics. -/
def specStandaloneDelimCount (s : String) : Nat :=
  ((linesOf s.toList).filter (fun line => decide (stripL line = ['G', 'O']))).length

/-- Python `batch.startswith('--')`: the first two characters are `--`. -/
def startsDashDash (b : String) : Bool :=
  match b.toList with
  | '-' :: '-' :: _ => true
  | _ => false

/-- The loop guard at line 44: `if not batch or batch.startswith('--')`. -/
def skipGuard (b : String) : Bool := decide (b = "") || startsDashDash b

/-- Outcome recorded for one executed batch: the success print at line
54 or the error print at line 56 with the captured message. -/
inductive Status where
  | succeeded : Status
  | failed : String → Status
deriving DecidableEq

/-- One per-batch record: the 1-based loop index from
`enumerate(batches, 1)` and the batch's outcome. -/
structure BatchResult where
  index : Nat
  status : Status
deriving DecidableEq

/-- Observable state accumulated by the loop: the ordered result list
and how many times `conn.commit()` / `conn.rollback()` were called. -/
structure RunState where
  results : List BatchResult
  commits : Nat
  rollbacks : Nat
deriving DecidableEq

deriving instance DecidableEq for Except

/-- Behaviour of the database connection, per loop index and batch
text: `none` means the call returns normally, `some e` means it raises
an exception whose text is `e`.  `execOutcome` is `cursor.execute`,
`drainOutcome` is the `while cursor.nextset(): pass` drain,
`commitOutcome` is `conn.commit()`, `rollbackOutcome` is
`conn.rollback()`. -/
structure Conn where
  execOutcome : Nat → String → Option String
  drainOutcome : Nat → String → Option String
  commitOutcome : Nat → String → Option String
  rollbackOutcome : Nat → String → Option String

/-- Lines 55-57: the per-batch `except` block.  The error print (the
Failed record) happens first, then `conn.rollback()` is called; if the
rollback itself raises, that exception escapes the per-batch handling
(`Except.error`). -/
def rollbackAfterFail (conn : Conn) (i : Nat) (b : String) (e : String) (st : RunState) :
    Except (String × RunState) RunState :=
  let st1 : RunState :=
    { results := st.results ++ [{ index := i, status := Status.failed e }],
      commits := st.commits,
      rollbacks := st.rollbacks + 1 }
  match conn.rollbackOutcome i b with
  | none => Except.ok st1
  | some e2 => Except.error (e2, st1)

/-- Lines 44-57: one iteration of the loop body for batch `b` at loop
index `i`.  The guard at line 44 skips without any record; otherwise
execute, drain, commit are attempted in order inside the `try`, and the
first raised exception goes through the per-batch handler. -/
def execStep (conn : Conn) (i : Nat) (b : String) (st : RunState) :
    Except (String × RunState) RunState :=
  if skipGuard b then Except.ok st
  else
    match conn.execOutcome i b with
    | some e => rollbackAfterFail conn i b e st
    | none =>
      match conn.drainOutcome i b with
      | some e => rollbackAfterFail conn i b e st
      | none =>
        let st1 : RunState :=
          { results := st.results, commits := st.commits + 1, rollbacks := st.rollbacks }
        match conn.commitOutcome i b with
        | some e => rollbackAfterFail conn i b e st1
        | none =>
          Except.ok
            { results := st1.results ++ [{ index := i, status := Status.succeeded }],
              commits := st1.commits,
              rollbacks := st1.rollbacks }

/-- Lines 43-57: `for i, batch in enumerate(batches, 1)`.  An exception
escaping a step (a raising rollback) aborts the loop. -/
def execLoop (conn : Conn) : Nat → List String → RunState → Except (String × RunState) RunState
  | _, [], st => Except.ok st
  | i, b :: rest, st =>
    match execStep conn i b st with
    | Except.ok st2 => execLoop conn (i + 1) rest st2
    | Except.error p => Except.error p

/-- State before the loop starts. -/
def initState : RunState := { results := [], commits := 0, rollbacks := 0 }

/-- The whole batch loop, starting at index 1. -/
def runBatches (conn : Conn) (batches : List String) : Except (String × RunState) RunState :=
  execLoop conn 1 batches initState

/-- The outcome the loop records for a non-skipped batch: the first
exception among execute, drain, commit, else success. -/
def batchOutcome (conn : Conn) (i : Nat) (b : String) : Status :=
  match conn.execOutcome i b with
  | some e => Status.failed e
  | none =>
    match conn.drainOutcome i b with
    | some e => Status.failed e
    | none =>
      match conn.commitOutcome i b with
      | some e => Status.failed e
      | none => Status.succeeded

/-- The result list the loop produces when no rollback raises: one
record per non-skipped batch, indexed by loop position. -/
def expectedResults (conn : Conn) : Nat → List String → List BatchResult
  | _, [] => []
  | i, b :: rest =>
    if skipGuard b then expectedResults conn (i + 1) rest
    else { index := i, status := batchOutcome conn i b } :: expectedResults conn (i + 1) rest

/-- How many times the loop calls `conn.commit()`: once per batch whose
execute and drain both return normally. -/
def countCommits (conn : Conn) : Nat → List String → Nat
  | _, [] => 0
  | i, b :: rest =>
    (if skipGuard b then 0
     else
       match conn.execOutcome i b with
       | some _ => 0
       | none =>
         match conn.drainOutcome i b with
         | some _ => 0
         | none => 1) + countCommits conn (i + 1) rest

/-- How many times the loop calls `conn.rollback()`: once per
non-skipped batch whose outcome is a failure. -/
def countRollbacks (conn : Conn) : Nat → List String → Nat
  | _, [] => 0
  | i, b :: rest =>
    (if skipGuard b then 0
     else
       match batchOutcome conn i b with
       | Status.failed _ => 1
       | Status.succeeded => 0) + countRollbacks conn (i + 1) rest

/-- The 1-based loop indices of the batches the guard does not skip;
skipped batches still consume their index. -/
def nonSkippedIndices : Nat → List String → List Nat
  | _, [] => []
  | i, b :: rest =>
    if skipGuard b then nonSkippedIndices (i + 1) rest
    else i :: nonSkippedIndices (i + 1) rest

/-- The environment the script runs in: whether `import pyodbc` at
line 5 succeeds, whether `pyodbc.connect` at line 31 returns a
connection or raises, whether reading the SQL file at lines 35-36
yields text or raises, and the connection's behaviour. -/
structure Env where
  pyodbcAvailable : Bool
  connectOutcome : Option String
  readOutcome : Except String String
  conn : Conn

/-- Observable outcome of one program run.  `uncaughtImportError` is a
crash at line 5 with a bare traceback; `connOpened`/`connClosed` track
`pyodbc.connect` (line 31) and `conn.close()` (line 60);
`completedBanner` is the "MIGRATION COMPLETED" print (line 63);
`fallbackPrinted` is either handler's manual-instructions text
(lines 68-84), and `fallbackMentionsSqlFile` records that this text
includes the script file path (lines 76 and 84). -/
structure Trace where
  uncaughtImportError : Bool
  connOpened : Bool
  connClosed : Bool
  run : RunState
  completedBanner : Bool
  fallbackPrinted : Bool
  fallbackMentionsSqlFile : Bool
deriving DecidableEq

/-- The whole script, lines 5-84.  `import pyodbc` sits at line 5,
before the `try` that starts at line 19, so a missing pyodbc is an
unhandled ImportError: no handler runs, nothing else happens.
Exceptions raised inside the `try` by connect, the file read, or a
raising rollback reach the generic handler at line 78, which prints the
fallback instructions (including the SQL file path at line 84) but
never calls `conn.close()`; only the fully successful path (lines
59-66) closes the connection and prints the completed banner. -/
def runMigration (env : Env) : Trace :=
  if !env.pyodbcAvailable then
    { uncaughtImportError := true, connOpened := false, connClosed := false,
      run := initState, completedBanner := false,
      fallbackPrinted := false, fallbackMentionsSqlFile := false }
  else
    match env.connectOutcome with
    | some _ =>
      { uncaughtImportError := false, connOpened := false, connClosed := false,
        run := initState, completedBanner := false,
        fallbackPrinted := true, fallbackMentionsSqlFile := true }
    | none =>
      match env.readOutcome with
      | Except.error _ =>
        { uncaughtImportError := false, connOpened := true, connClosed := false,
          run := initState, completedBanner := false,
          fallbackPrinted := true, fallbackMentionsSqlFile := true }
      | Except.ok content =>
        match runBatches env.conn (splitBatches content) with
        | Except.error p =>
          { uncaughtImportError := false, connOpened := true, connClosed := false,
            run := p.2, completedBanner := false,
            fallbackPrinted := true, fallbackMentionsSqlFile := true }
        | Except.ok st =>
          { uncaughtImportError := false, connOpened := true, connClosed := true,
            run := st, completedBanner := true,
            fallbackPrinted := false, fallbackMentionsSqlFile := false }

/-- A connection on which every call returns normally. -/
def connAllOk : Conn :=
  { execOutcome := fun _ _ => none, drainOutcome := fun _ _ => none,
    commitOutcome := fun _ _ => none, rollbackOutcome := fun _ _ => none }

/-- A connection whose execute always raises `boom`; everything else
returns normally. -/
def connExecAllFail : Conn :=
  { execOutcome := fun _ _ => some "boom", drainOutcome := fun _ _ => none,
    commitOutcome := fun _ _ => none, rollbackOutcome := fun _ _ => none }

/-- The stub of spec section 8: execute raises exactly on the 2nd
batch, with message `msg`; drain, commit and rollback always return
normally. -/
def stubFail2 (msg : String) : Conn :=
  { execOutcome := fun i _ => if i = 2 then some msg else none,
    drainOutcome := fun _ _ => none,
    commitOutcome := fun _ _ => none, rollbackOutcome := fun _ _ => none }

/-- A connection whose drain always raises `drain boom`; execute,
commit and rollback return normally. -/
def connDrainFail : Conn :=
  { execOutcome := fun _ _ => none, drainOutcome := fun _ _ => some "drain boom",
    commitOutcome := fun _ _ => none, rollbackOutcome := fun _ _ => none }

/-- A connection whose execute raises `boom` and whose rollback raises
`rb boom`. -/
def connRollbackBoom : Conn :=
  { execOutcome := fun _ _ => some "boom", drainOutcome := fun _ _ => none,
    commitOutcome := fun _ _ => none, rollbackOutcome := fun _ _ => some "rb boom" }

/-- Environment in which pyodbc is not installed. -/
def envNoPyodbc : Env :=
  { pyodbcAvailable := false, connectOutcome := none,
    readOutcome := Except.ok "", conn := connAllOk }

/-- Environment in which the connection opens but reading the SQL file
raises an I/O error. -/
def envReadFails : Env :=
  { pyodbcAvailable := true, connectOutcome := none,
    readOutcome := Except.error "No such file or directory", conn := connAllOk }

/-- Environment that connects and reads a one-batch script, against the
connection whose rollback raises. -/
def envRollbackBoom : Env :=
  { pyodbcAvailable := true, connectOutcome := none,
    readOutcome := Except.ok "X", conn := connRollbackBoom }

/-- Unfolding equation for `dropWSEnd` on a cons cell. -/
theorem dropWSEnd_cons (c : Char) (rest : List Char) :
    dropWSEnd (c :: rest) =
      match dropWSEnd rest with
      | [] => if pyWS c then [] else [c]
      | d :: r => c :: d :: r := rfl

/-- A trailing strip keeps the head character when its result is
non-empty. -/
theorem dropWSEnd_cons_shape (c : Char) (rest : List Char) :
    dropWSEnd (c :: rest) = [] ∨ ∃ r, dropWSEnd (c :: rest) = c :: r := by
  cases h : dropWSEnd rest with
  | nil =>
    by_cases hc : pyWS c
    · left; simp [dropWSEnd, h, hc]
    · right; exact ⟨[], by simp [dropWSEnd, h, hc]⟩
  | cons d r =>
    right; exact ⟨d :: r, by simp [dropWSEnd, h]⟩

/-- Removing trailing whitespace is idempotent. -/
theorem dropWSEnd_idem (l : List Char) : dropWSEnd (dropWSEnd l) = dropWSEnd l := by
  induction l with
  | nil => rfl
  | cons c rest ih =>
    cases h : dropWSEnd rest with
    | nil =>
      by_cases hc : pyWS c
      · simp [dropWSEnd, h, hc]
      · simp [dropWSEnd, h, hc]
    | cons d r =>
      have h2 : dropWSEnd (d :: r) = d :: r := by rw [← h, ih, h]
      rw [dropWSEnd_cons c rest, h]
      show dropWSEnd (c :: d :: r) = c :: d :: r
      rw [dropWSEnd_cons c (d :: r), h2]

/-- The first character surviving a `dropWhile` falsifies the predicate. -/
theorem dropWhile_first_false (p : Char → Bool) :
    ∀ (l : List Char) (c : Char) (r : List Char), l.dropWhile p = c :: r → p c = false := by
  intro l
  induction l with
  | nil => intro c r h; simp [List.dropWhile] at h
  | cons a rest ih =>
    intro c r h
    cases hpa : p a with
    | true =>
      rw [List.dropWhile_cons, if_pos hpa] at h
      exact ih c r h
    | false =>
      rw [List.dropWhile_cons, if_neg (by simp [hpa])] at h
      cases h
      exact hpa

/-- A stripped text has no leading whitespace left. -/
theorem dropWS_stripL (l : List Char) : dropWS (stripL l) = stripL l := by
  unfold stripL
  cases h : dropWS l with
  | nil => simp [dropWSEnd, dropWS, List.dropWhile]
  | cons c rest =>
    have hc : pyWS c = false := dropWhile_first_false pyWS l c rest h
    rcases dropWSEnd_cons_shape c rest with h0 | ⟨r, hr⟩
    · rw [h0]; simp [dropWS, List.dropWhile]
    · rw [hr]; simp [dropWS, List.dropWhile_cons, hc]

/-- Python `strip()` is idempotent. -/
theorem stripL_idem (l : List Char) : stripL (stripL l) = stripL l := by
  have h1 : stripL (stripL l) = dropWSEnd (stripL l) := by
    show dropWSEnd (dropWS (stripL l)) = dropWSEnd (stripL l)
    rw [dropWS_stripL]
  rw [h1]
  show dropWSEnd (dropWSEnd (dropWS l)) = stripL l
  rw [dropWSEnd_idem]
  rfl

/-- `dropWhile` removes an initial segment. -/
theorem dropWhile_eq_drop (p : Char → Bool) (l : List Char) :
    ∃ n, l.dropWhile p = l.drop n := by
  induction l with
  | nil => exact ⟨0, rfl⟩
  | cons a rest ih =>
    cases hpa : p a with
    | true =>
      obtain ⟨n, hn⟩ := ih
      exact ⟨n + 1, by rw [List.dropWhile_cons, if_pos hpa, List.drop_succ_cons, hn]⟩
    | false =>
      exact ⟨0, by rw [List.dropWhile_cons, if_neg (by simp [hpa]), List.drop_zero]⟩

/-- `dropWSEnd` keeps an initial segment. -/
theorem dropWSEnd_eq_take (l : List Char) : ∃ m, dropWSEnd l = l.take m := by
  induction l with
  | nil => exact ⟨0, rfl⟩
  | cons c rest ih =>
    cases h : dropWSEnd rest with
    | nil =>
      by_cases hc : pyWS c
      · exact ⟨0, by simp [dropWSEnd, h, hc]⟩
      · exact ⟨1, by simp [dropWSEnd, h, hc]⟩
    | cons d r =>
      obtain ⟨m, hm⟩ := ih
      refine ⟨m + 1, ?_⟩
      rw [List.take_succ_cons, ← hm, h]
      simp [dropWSEnd, h]

/-- No adjacent pair in a list, hence none in its tail. -/
theorem pairOcc_tail_false (x y c : Char) (l : List Char)
    (h : pairOcc x y (c :: l) = false) : pairOcc x y l = false := by
  cases l with
  | nil => rfl
  | cons d r =>
    simp [pairOcc] at h ⊢
    exact h.2

/-- No adjacent pair in a list, hence none after dropping a segment. -/
theorem pairOcc_drop_false (x y : Char) :
    ∀ (l : List Char) (n : Nat), pairOcc x y l = false → pairOcc x y (l.drop n) = false := by
  intro l
  induction l with
  | nil => intro n _; simp [List.drop_nil]; rfl
  | cons c rest ih =>
    intro n h
    cases n with
    | zero => exact h
    | succ k =>
      rw [List.drop_succ_cons]
      exact ih k (pairOcc_tail_false x y c rest h)

/-- No adjacent pair in a list, hence none in any initial segment. -/
theorem pairOcc_take_false (x y : Char) :
    ∀ (l : List Char) (m : Nat), pairOcc x y l = false → pairOcc x y (l.take m) = false := by
  intro l
  induction l with
  | nil => intro m _; simp [List.take_nil]; rfl
  | cons c rest ih =>
    intro m h
    cases m with
    | zero => rfl
    | succ k =>
      rw [List.take_succ_cons]
      cases rest with
      | nil => simp [List.take_nil]; rfl
      | cons d r =>
        cases k with
        | zero => rfl
        | succ k2 =>
          rw [List.take_succ_cons]
          simp only [pairOcc] at h ⊢
          simp only [Bool.or_eq_false_iff] at h ⊢
          refine ⟨h.1, ?_⟩
          have := ih (k2 + 1) h.2
          rw [List.take_succ_cons] at this
          exact this

/-- Stripping cannot create a new adjacent pair. -/
theorem stripL_pairOcc_false (x y : Char) (l : List Char) (h : pairOcc x y l = false) :
    pairOcc x y (stripL l) = false := by
  obtain ⟨n, hn⟩ := dropWhile_eq_drop pyWS l
  obtain ⟨m, hm⟩ := dropWSEnd_eq_take (dropWS l)
  unfold stripL
  rw [hm]
  unfold dropWS
  rw [hn]
  exact pairOcc_take_false x y _ m (pairOcc_drop_false x y l n h)

/-- Adjacent-pair occurrence after appending one character. -/
theorem pairOcc_append_single (x y c : Char) :
    ∀ t : List Char, pairOcc x y (t ++ [c]) =
      (pairOcc x y t ||
        match t.getLast? with
        | some a => decide (a = x ∧ c = y)
        | none => false) := by
  intro t
  induction t with
  | nil => rfl
  | cons a t' ih =>
    cases t' with
    | nil => simp [pairOcc]
    | cons b t'' =>
      have hl : (a :: b :: t'').getLast? = (b :: t'').getLast? := List.getLast?_cons_cons
      show (decide (a = x ∧ b = y) || pairOcc x y ((b :: t'') ++ [c])) =
        (pairOcc x y (a :: b :: t'') ||
          match (a :: b :: t'').getLast? with
          | some a2 => decide (a2 = x ∧ c = y)
          | none => false)
      rw [ih, hl]
      conv_rhs =>
        rw [show pairOcc x y (a :: b :: t'') =
          (decide (a = x ∧ b = y) || pairOcc x y (b :: t'')) from rfl]
      rw [Bool.or_assoc]

/-- Reversing a list swaps the order of adjacent pairs. -/
theorem pairOcc_reverse (x y : Char) :
    ∀ l : List Char, pairOcc x y l.reverse = pairOcc y x l := by
  intro l
  induction l with
  | nil => rfl
  | cons c l' ih =>
    rw [List.reverse_cons, pairOcc_append_single, ih, List.getLast?_reverse]
    cases l' with
    | nil => rfl
    | cons d l'' =>
      simp only [List.head?_cons, pairOcc]
      rw [Bool.or_comm]
      congr 1
      exact decide_eq_decide.mpr ⟨fun ⟨h1, h2⟩ => ⟨h2, h1⟩, fun ⟨h1, h2⟩ => ⟨h2, h1⟩⟩

/-- Unfolding equation for the splitter on two or more characters. -/
theorem splitGOAux_cons2 (acc : List Char) (c d : Char) (rest : List Char) :
    splitGOAux acc (c :: d :: rest) =
      if c = 'G' ∧ d = 'O' then acc.reverse :: splitGOAux [] rest
      else splitGOAux (c :: acc) (d :: rest) := rfl

/-- A text with no `GO` occurrence is returned whole by the splitter. -/
theorem splitGOAux_no_occ (l : List Char) :
    pairOcc 'G' 'O' l = false → ∀ acc, splitGOAux acc l = [acc.reverse ++ l] := by
  induction l with
  | nil => intro _ acc; simp [splitGOAux]
  | cons c t' ih =>
    intro h acc
    cases t' with
    | nil => simp [splitGOAux]
    | cons d rest =>
      have hcd : ¬(c = 'G' ∧ d = 'O') := by
        intro hand
        simp [pairOcc, hand] at h
      have h2 := pairOcc_tail_false 'G' 'O' c (d :: rest) h
      rw [splitGOAux_cons2, if_neg hcd, ih h2 (c :: acc)]
      simp

/-- Pushing a character onto the reversed accumulator keeps it free of
`GO` pairs (read reversed, of `OG` pairs), provided the boundary does
not form one. -/
theorem pairOcc_OG_extend (c : Char) (acc : List Char)
    (hacc : pairOcc 'O' 'G' acc = false)
    (hb : acc.head? = some 'G' → c ≠ 'O') :
    pairOcc 'O' 'G' (c :: acc) = false := by
  cases acc with
  | nil => rfl
  | cons g acc' =>
    simp only [pairOcc, Bool.or_eq_false_iff]
    refine ⟨?_, hacc⟩
    simp only [decide_eq_false_iff_not]
    rintro ⟨hc, hg⟩
    exact hb (by simp [hg]) hc

/-- Every fragment the splitter emits is free of `GO` occurrences: the
scan cuts at every one of them. -/
theorem splitGOAux_frag_no_occ :
    ∀ (n : Nat) (l acc : List Char), l.length ≤ n →
      pairOcc 'O' 'G' acc = false →
      (acc.head? = some 'G' → l.head? ≠ some 'O') →
      ∀ f ∈ splitGOAux acc l, pairOcc 'G' 'O' f = false := by
  intro n
  induction n with
  | zero =>
    intro l acc hlen hacc _ f hf
    have hln : l = [] := List.length_eq_zero.mp (Nat.le_zero.mp hlen)
    subst hln
    simp only [splitGOAux, List.mem_singleton] at hf
    subst hf
    rw [pairOcc_reverse]
    exact hacc
  | succ m ih =>
    intro l acc hlen hacc hbd f hf
    cases l with
    | nil =>
      simp only [splitGOAux, List.mem_singleton] at hf
      subst hf
      rw [pairOcc_reverse]
      exact hacc
    | cons c t' =>
      cases t' with
      | nil =>
        simp only [splitGOAux, List.mem_singleton] at hf
        subst hf
        rw [pairOcc_reverse]
        refine pairOcc_OG_extend c acc hacc ?_
        intro hG hc
        exact hbd hG (by simp [hc])
      | cons d rest =>
        by_cases hcd : c = 'G' ∧ d = 'O'
        · rw [splitGOAux_cons2, if_pos hcd] at hf
          rcases List.mem_cons.mp hf with hf1 | hf2
          · subst hf1
            rw [pairOcc_reverse]
            exact hacc
          · refine ih rest [] ?_ rfl (by intro h; simp at h) f hf2
            simp only [List.length_cons] at hlen
            omega
        · rw [splitGOAux_cons2, if_neg hcd] at hf
          refine ih (d :: rest) (c :: acc) ?_ ?_ ?_ f hf
          · simp only [List.length_cons] at hlen ⊢
            omega
          · refine pairOcc_OG_extend c acc hacc ?_
            intro hG hc
            exact hbd hG (by simp [hc])
          · intro h1 h2
            simp only [List.head?_cons, Option.some.injEq] at h1 h2
            exact hcd ⟨h1, h2⟩

/-- Every fragment of the line-39 split is free of `GO` occurrences. -/
theorem splitGO_frag_no_occ (l : List Char) :
    ∀ f ∈ splitGO l, pairOcc 'G' 'O' f = false := by
  intro f hf
  exact splitGOAux_frag_no_occ l.length l [] le_rfl rfl (by intro h; simp at h) f hf

/-- What line 39 guarantees about every batch it keeps: non-empty,
already stripped, and without any further `GO` occurrence. -/
theorem splitBatchesL_mem (l : List Char) (b : List Char) (hb : b ∈ splitBatchesL l) :
    b ≠ [] ∧ stripL b = b ∧ pairOcc 'G' 'O' b = false := by
  unfold splitBatchesL at hb
  rw [List.mem_filter] at hb
  obtain ⟨hmem, hfilt⟩ := hb
  rw [List.mem_map] at hmem
  obtain ⟨f, hf, rfl⟩ := hmem
  refine ⟨?_, stripL_idem f, stripL_pairOcc_false _ _ f (splitGO_frag_no_occ l f hf)⟩
  simpa using hfilt

/-- A text with no `GO` occurrence and non-empty stripped content
yields exactly its own strip as single batch. -/
theorem splitBatchesL_no_occ (l : List Char) (h : pairOcc 'G' 'O' l = false)
    (hne : stripL l ≠ []) : splitBatchesL l = [stripL l] := by
  unfold splitBatchesL splitGO
  rw [splitGOAux_no_occ l h []]
  simp [hne]

/-- `String.mk` of a non-empty list is not the empty string. -/
theorem mk_ne_empty (l : List Char) (h : l ≠ []) : String.mk l ≠ "" := by
  intro hc
  exact h (congrArg String.toList hc)

/-- Membership in `splitBatches` through the character-list level. -/
theorem splitBatches_mem (s : String) (b : String) (hb : b ∈ splitBatches s) :
    ∃ bl, b = String.mk bl ∧ bl ∈ splitBatchesL s.toList := by
  unfold splitBatches at hb
  rw [List.mem_map] at hb
  obtain ⟨bl, hbl, rfl⟩ := hb
  exact ⟨bl, rfl, hbl⟩

/-- Every batch line 39 hands to the loop is non-empty, equal to its
own strip, and splits to itself alone. -/
theorem splitBatches_props (s : String) (b : String) (hb : b ∈ splitBatches s) :
    b ≠ "" ∧ pyStrip b = b ∧ splitBatches b = [b] := by
  obtain ⟨bl, rfl, hbl⟩ := splitBatches_mem s b hb
  obtain ⟨hne, hstrip, hocc⟩ := splitBatchesL_mem s.toList bl hbl
  refine ⟨mk_ne_empty bl hne, ?_, ?_⟩
  · show String.mk (stripL bl) = String.mk bl
    rw [hstrip]
  · show (splitBatchesL bl).map String.mk = [String.mk bl]
    rw [splitBatchesL_no_occ bl hocc (by rw [hstrip]; exact hne), hstrip]
    rfl

/-- Unfolding equation for the loop on a cons cell. -/
theorem execLoop_cons (conn : Conn) (i : Nat) (b : String) (rest : List String) (st : RunState) :
    execLoop conn i (b :: rest) st =
      match execStep conn i b st with
      | Except.ok st2 => execLoop conn (i + 1) rest st2
      | Except.error p => Except.error p := rfl

/-- As long as `conn.rollback()` never raises, the loop runs to the end
and produces exactly one result per non-skipped batch, one commit per
batch whose execute and drain succeed, and one rollback per failed
batch. -/
theorem execLoop_ok (conn : Conn) (hrb : ∀ i b, conn.rollbackOutcome i b = none) :
    ∀ (bs : List String) (i : Nat) (st : RunState),
      execLoop conn i bs st =
        Except.ok
          { results := st.results ++ expectedResults conn i bs,
            commits := st.commits + countCommits conn i bs,
            rollbacks := st.rollbacks + countRollbacks conn i bs } := by
  intro bs
  induction bs with
  | nil =>
    intro i st
    simp [execLoop, expectedResults, countCommits, countRollbacks]
  | cons b rest ih =>
    intro i st
    by_cases hsk : skipGuard b
    · have hstep : execStep conn i b st = Except.ok st := by simp [execStep, hsk]
      rw [execLoop_cons, hstep]
      show execLoop conn (i + 1) rest st = _
      rw [ih (i + 1) st]
      simp [expectedResults, countCommits, countRollbacks, hsk]
    · cases hex : conn.execOutcome i b with
      | some e =>
        have hstep : execStep conn i b st =
            Except.ok
              { results := st.results ++ [{ index := i, status := Status.failed e }],
                commits := st.commits, rollbacks := st.rollbacks + 1 } := by
          simp [execStep, hsk, hex, rollbackAfterFail, hrb i b]
        rw [execLoop_cons, hstep]
        show execLoop conn (i + 1) rest _ = _
        rw [ih (i + 1) _]
        simp [expectedResults, countCommits, countRollbacks, batchOutcome, hsk, hex,
          List.append_assoc]
        omega
      | none =>
        cases hdr : conn.drainOutcome i b with
        | some e =>
          have hstep : execStep conn i b st =
              Except.ok
                { results := st.results ++ [{ index := i, status := Status.failed e }],
                  commits := st.commits, rollbacks := st.rollbacks + 1 } := by
            simp [execStep, hsk, hex, hdr, rollbackAfterFail, hrb i b]
          rw [execLoop_cons, hstep]
          show execLoop conn (i + 1) rest _ = _
          rw [ih (i + 1) _]
          simp [expectedResults, countCommits, countRollbacks, batchOutcome, hsk, hex, hdr,
            List.append_assoc]
          omega
        | none =>
          cases hcm : conn.commitOutcome i b with
          | some e =>
            have hstep : execStep conn i b st =
                Except.ok
                  { results := st.results ++ [{ index := i, status := Status.failed e }],
                    commits := st.commits + 1, rollbacks := st.rollbacks + 1 } := by
              simp [execStep, hsk, hex, hdr, hcm, rollbackAfterFail, hrb i b]
            rw [execLoop_cons, hstep]
            show execLoop conn (i + 1) rest _ = _
            rw [ih (i + 1) _]
            simp [expectedResults, countCommits, countRollbacks, batchOutcome, hsk, hex, hdr,
              hcm, List.append_assoc]
            omega
          | none =>
            have hstep : execStep conn i b st =
                Except.ok
                  { results := st.results ++ [{ index := i, status := Status.succeeded }],
                    commits := st.commits + 1, rollbacks := st.rollbacks } := by
              simp [execStep, hsk, hex, hdr, hcm]
            rw [execLoop_cons, hstep]
            show execLoop conn (i + 1) rest _ = _
            rw [ih (i + 1) _]
            simp [expectedResults, countCommits, countRollbacks, batchOutcome, hsk, hex, hdr,
              hcm, List.append_assoc]
            omega

/-- One result per non-skipped batch. -/
theorem expectedResults_length (conn : Conn) :
    ∀ (bs : List String) (i : Nat),
      (expectedResults conn i bs).length = (bs.filter (fun b => !skipGuard b)).length := by
  intro bs
  induction bs with
  | nil => intro i; rfl
  | cons b rest ih =>
    intro i
    by_cases hsk : skipGuard b
    · simp [expectedResults, hsk, List.filter_cons, ih (i + 1)]
    · simp [expectedResults, hsk, List.filter_cons, ih (i + 1)]

/-- The recorded indices are the loop positions of the non-skipped
batches; skipped batches still consume their position. -/
theorem expectedResults_map_index (conn : Conn) :
    ∀ (bs : List String) (i : Nat),
      (expectedResults conn i bs).map BatchResult.index = nonSkippedIndices i bs := by
  intro bs
  induction bs with
  | nil => intro i; rfl
  | cons b rest ih =>
    intro i
    by_cases hsk : skipGuard b
    · simp [expectedResults, nonSkippedIndices, hsk, ih (i + 1)]
    · simp [expectedResults, nonSkippedIndices, hsk, ih (i + 1)]

/-- Every non-skipped batch contributes its record, at its loop
position, with the outcome the connection dictates. -/
theorem expectedResults_mem (conn : Conn) :
    ∀ (bs : List String) (i k : Nat) (hk : k < bs.length),
      skipGuard (bs.get ⟨k, hk⟩) = false →
      ({ index := i + k, status := batchOutcome conn (i + k) (bs.get ⟨k, hk⟩) } : BatchResult) ∈
        expectedResults conn i bs := by
  intro bs
  induction bs with
  | nil => intro i k hk; exact absurd hk (Nat.not_lt_zero k)
  | cons b rest ih =>
    intro i k hk hskip
    cases k with
    | zero =>
      have hb : (b :: rest).get ⟨0, hk⟩ = b := rfl
      rw [hb] at hskip
      simp [expectedResults, hskip]
    | succ k2 =>
      have hk2 : k2 < rest.length := by simpa using hk
      have hg : (b :: rest).get ⟨k2 + 1, hk⟩ = rest.get ⟨k2, hk2⟩ := rfl
      rw [hg] at hskip ⊢
      have harith : i + (k2 + 1) = (i + 1) + k2 := by omega
      rw [harith]
      have hmem := ih (i + 1) k2 hk2 hskip
      by_cases hsk : skipGuard b
      · simpa [expectedResults, hsk] using hmem
      · simp [expectedResults, hsk]
        right
        exact hmem

/-- Claim C1 falsified as stated: in the script `--c\nGO\nX` the split
yields the two batches `--c` and `X` (N = 2); against a connection
whose execute always raises `boom`, batch 2 does raise, the run still
completes, but the recorded summary is the single result for index 2 —
its length 1 is not N = 2, because the comment batch at index 1 was
skipped by the line-44 guard without any record. -/
theorem C1_counterexample :
    (splitBatches "--c\nGO\nX").length = 2 ∧
    skipGuard "X" = false ∧
    connExecAllFail.execOutcome 2 "X" = some "boom" ∧
    runBatches connExecAllFail (splitBatches "--c\nGO\nX") =
      Except.ok { results := [{ index := 2, status := Status.failed "boom" }],
                  commits := 0, rollbacks := 1 } := by
  decide

/-- Claim C1, amended: for every batch list and every per-batch outcome
of execute (with `conn.rollback()` itself returning normally, the only
behaviour the claim quantifies over being execute's), the run completes
with one result per batch not skipped by the line-44 guard — not per
batch of the whole list — a failing batch k is rolled back and recorded
as Failed with the captured error text at its index, and all later
batches are still processed. -/
theorem C1_failure_isolation (conn : Conn) (batches : List String)
    (hrb : ∀ i b, conn.rollbackOutcome i b = none) :
    runBatches conn batches =
      Except.ok
        { results := expectedResults conn 1 batches,
          commits := countCommits conn 1 batches,
          rollbacks := countRollbacks conn 1 batches } ∧
    (expectedResults conn 1 batches).length =
      (batches.filter (fun b => !skipGuard b)).length ∧
    ∀ (k : Nat) (hk : k < batches.length) (e : String),
      skipGuard (batches.get ⟨k, hk⟩) = false →
      conn.execOutcome (1 + k) (batches.get ⟨k, hk⟩) = some e →
      ({ index := 1 + k, status := Status.failed e } : BatchResult) ∈
        expectedResults conn 1 batches := by
  refine ⟨?_, expectedResults_length conn batches 1, ?_⟩
  · unfold runBatches
    rw [execLoop_ok conn hrb batches 1 initState]
    simp [initState]
  · intro k hk e hskip hexec
    have hmem := expectedResults_mem conn batches 1 k hk hskip
    have hout : batchOutcome conn (1 + k) (batches.get ⟨k, hk⟩) = Status.failed e := by
      unfold batchOutcome
      rw [hexec]
    rwa [hout] at hmem

/-- Witness for C1 at a concrete input: two non-comment batches, both
failing, both recorded at their indices. -/
theorem C1_witness :
    runBatches connExecAllFail ["A", "B"] =
      Except.ok
        { results := expectedResults connExecAllFail 1 ["A", "B"],
          commits := countCommits connExecAllFail 1 ["A", "B"],
          rollbacks := countRollbacks connExecAllFail 1 ["A", "B"] } ∧
    ({ index := 1, status := Status.failed "boom" } : BatchResult) ∈
      expectedResults connExecAllFail 1 ["A", "B"] := by
  have h := C1_failure_isolation connExecAllFail ["A", "B"] (fun _ _ => rfl)
  exact ⟨h.1, h.2.2 0 (by decide) "boom" (by decide) rfl⟩

/-- Claim C2: with pyodbc unavailable the program crashes at line 5
with an unhandled ImportError — the `import` sits before the `try`, so
the `except ImportError` handler at line 68 never runs: no fallback
instructions, no mention of the script path, and (the true part of the
claim) zero batch results and no connection attempt. -/
theorem C2_missing_driver_crash :
    (runMigration envNoPyodbc).uncaughtImportError = true ∧
    (runMigration envNoPyodbc).fallbackPrinted = false ∧
    (runMigration envNoPyodbc).fallbackMentionsSqlFile = false ∧
    (runMigration envNoPyodbc).connOpened = false ∧
    (runMigration envNoPyodbc).run.results = [] := by
  decide

/-- Claim C3 falsified as stated: `CATEGORY` contains no standalone
`GO` line and strips to non-empty text, yet line 39 splits it at the
embedded substring `GO` into the two batches `CATE` and `RY`. -/
theorem C3_counterexample :
    specStandaloneDelimCount "CATEGORY" = 0 ∧
    pyStrip "CATEGORY" ≠ "" ∧
    splitBatches "CATEGORY" = ["CATE", "RY"] ∧
    splitBatches "CATEGORY" ≠ [pyStrip "CATEGORY"] := by
  decide

/-- Claim C3, amended: the split is at every substring occurrence of
`GO`, so the one-batch guarantee holds for scripts with no `GO`
substring at all (and non-empty trimmed content): splitting yields
exactly one batch, the trimmed script. -/
theorem C3_single_batch (s : String) (hocc : containsGO s = false) (hne : pyStrip s ≠ "") :
    splitBatches s = [pyStrip s] := by
  have hne2 : stripL s.toList ≠ [] := by
    intro h
    apply hne
    show String.mk (stripL s.toList) = ""
    rw [h]
  show (splitBatchesL s.toList).map String.mk = [pyStrip s]
  rw [splitBatchesL_no_occ s.toList hocc hne2]
  rfl

/-- Witness for C3 at a concrete input. -/
theorem C3_witness : splitBatches "SELECT 1" = [pyStrip "SELECT 1"] :=
  C3_single_batch "SELECT 1" (by decide) (by decide)

/-- Claim C4 falsified as stated: the splitter keeps the comment-only
fragment `--c` in the batch sequence, and in the run it consumes loop
index 1 — the real batch `A` is numbered 2 and is the only one with a
result. -/
theorem C4_counterexample :
    splitBatches "--c\nGO\nA" = ["--c", "A"] ∧
    startsDashDash "--c" = true ∧
    runBatches connAllOk (splitBatches "--c\nGO\nA") =
      Except.ok { results := [{ index := 2, status := Status.succeeded }],
                  commits := 1, rollbacks := 0 } := by
  decide

/-- Claim C4, amended: the splitter discards only fragments that are
empty after trimming; comment-starting fragments are kept (so the batch
sequence can contain them), they consume their loop index, and are
skipped by the loop without a recorded result — the indices of the
recorded results are exactly the loop positions of the non-skipped
batches, in source order. -/
theorem C4_splitter_keeps_comments (s : String) (conn : Conn)
    (hrb : ∀ i b, conn.rollbackOutcome i b = none) :
    (∀ b ∈ splitBatches s, b ≠ "") ∧
    ∃ st, runBatches conn (splitBatches s) = Except.ok st ∧
      st.results.map BatchResult.index = nonSkippedIndices 1 (splitBatches s) := by
  constructor
  · intro b hb
    exact (splitBatches_props s b hb).1
  · refine ⟨{ results := expectedResults conn 1 (splitBatches s),
              commits := countCommits conn 1 (splitBatches s),
              rollbacks := countRollbacks conn 1 (splitBatches s) }, ?_, ?_⟩
    · unfold runBatches
      rw [execLoop_ok conn hrb (splitBatches s) 1 initState]
      simp [initState]
    · exact expectedResults_map_index conn (splitBatches s) 1

/-- Witness for C4 at a concrete input: in `--c\nGO\nA` the kept
comment batch is non-empty, and the recorded indices are the
non-skipped positions. -/
theorem C4_witness :
    ("--c" : String) ≠ "" ∧
    (runBatches connAllOk (splitBatches "--c\nGO\nA")).map
        (fun st => st.results.map BatchResult.index) =
      Except.ok (nonSkippedIndices 1 (splitBatches "--c\nGO\nA")) := by
  have h := C4_splitter_keeps_comments "--c\nGO\nA" connAllOk (fun _ _ => rfl)
  refine ⟨h.1 "--c" (by decide), ?_⟩
  obtain ⟨st, h1, h2⟩ := h.2
  rw [h1]
  show Except.ok (st.results.map BatchResult.index) =
    Except.ok (nonSkippedIndices 1 (splitBatches "--c\nGO\nA"))
  rw [h2]

/-- Claim C5 falsified as stated: with execute succeeding and the drain
raising `drain boom`, the batch is recorded as Failed with that text
and rolled back — the drain error is caught by the very same per-batch
handler, so it does produce a batch failure. -/
theorem C5_counterexample :
    connDrainFail.execOutcome 1 "X" = none ∧
    connDrainFail.drainOutcome 1 "X" = some "drain boom" ∧
    runBatches connDrainFail ["X"] =
      Except.ok { results := [{ index := 1, status := Status.failed "drain boom" }],
                  commits := 0, rollbacks := 1 } := by
  decide

/-- Claim C5, amended: the drain sits inside the per-batch `try`
(line 51), so an error raised while draining is handled exactly like an
execute failure: no commit, the batch recorded as Failed with the drain
error text, and its transaction rolled back. -/
theorem C5_drain_error_fails_batch (conn : Conn) (i : Nat) (b : String) (st : RunState)
    (e : String) (hskip : skipGuard b = false)
    (hexec : conn.execOutcome i b = none)
    (hdrain : conn.drainOutcome i b = some e)
    (hrb : conn.rollbackOutcome i b = none) :
    execStep conn i b st =
      Except.ok { results := st.results ++ [{ index := i, status := Status.failed e }],
                  commits := st.commits, rollbacks := st.rollbacks + 1 } := by
  simp [execStep, hskip, hexec, hdrain, rollbackAfterFail, hrb]

/-- Witness for C5 at a concrete input. -/
theorem C5_witness :
    execStep connDrainFail 1 "X" initState =
      Except.ok { results := [{ index := 1, status := Status.failed "drain boom" }],
                  commits := 0, rollbacks := 1 } := by
  have h := C5_drain_error_fails_batch connDrainFail 1 "X" initState "drain boom"
    (by decide) rfl rfl rfl
  simpa [initState] using h

/-- Claim C6: against the stub that raises exactly on the 2nd of 3
(non-skipped) batches, the run records Succeeded, Failed msg,
Succeeded, commits twice and rolls back once. -/
theorem C6_stub_run (b1 b2 b3 msg : String)
    (h1 : skipGuard b1 = false) (h2 : skipGuard b2 = false) (h3 : skipGuard b3 = false) :
    runBatches (stubFail2 msg) [b1, b2, b3] =
      Except.ok
        { results := [{ index := 1, status := Status.succeeded },
                      { index := 2, status := Status.failed msg },
                      { index := 3, status := Status.succeeded }],
          commits := 2, rollbacks := 1 } := by
  unfold runBatches
  rw [execLoop_ok (stubFail2 msg) (fun _ _ => rfl) [b1, b2, b3] 1 initState]
  simp [initState, expectedResults, countCommits, countRollbacks, batchOutcome, stubFail2,
    h1, h2, h3]

/-- Witness for C6 at a concrete input. -/
theorem C6_witness :
    runBatches (stubFail2 "msg") ["A", "B", "C"] =
      Except.ok
        { results := [{ index := 1, status := Status.succeeded },
                      { index := 2, status := Status.failed "msg" },
                      { index := 3, status := Status.succeeded }],
          commits := 2, rollbacks := 1 } :=
  C6_stub_run "A" "B" "C" "msg" (by decide) (by decide) (by decide)

/-- Claim C7: when reading the script file raises after the connection
was opened, the top-level handler (line 78) prints the fallback text
and the program ends — `conn.close()` at line 60 is on the success path
only and is never reached, so the connection is not released on this
exit path. -/
theorem C7_connection_leak :
    (runMigration envReadFails).connOpened = true ∧
    (runMigration envReadFails).connClosed = false ∧
    (runMigration envReadFails).fallbackPrinted = true ∧
    (runMigration envReadFails).completedBanner = false := by
  decide

/-- Claim C8: the splitter is a pure function of the script text, so
splitting the same text twice yields identical ordered batch sequences
(first conjunct, definitional); moreover splitting is idempotent in the
stronger sense that re-splitting any produced batch returns exactly
that batch. -/
theorem C8_split_deterministic_idempotent (s : String) :
    splitBatches s = splitBatches s ∧
    ∀ b ∈ splitBatches s, splitBatches b = [b] := by
  exact ⟨rfl, fun b hb => (splitBatches_props s b hb).2.2⟩

/-- Witness for C8 at a concrete input. -/
theorem C8_witness : splitBatches "CATE" = ["CATE"] := by
  have h := C8_split_deterministic_idempotent "CATEGORY"
  exact h.2 "CATE" (by decide)

/-- Claim C9: every batch line 39 hands to the loop is non-empty and
equal to its own strip, so the `not batch` half of the line-44 guard is
never the reason a batch is skipped: on these batches the whole guard
equals the comment test alone. -/
theorem C9_batches_trimmed_nonempty (s : String) :
    ∀ b ∈ splitBatches s, b ≠ "" ∧ pyStrip b = b ∧ skipGuard b = startsDashDash b := by
  intro b hb
  obtain ⟨hne, hstrip, _⟩ := splitBatches_props s b hb
  refine ⟨hne, hstrip, ?_⟩
  unfold skipGuard
  rw [decide_eq_false hne]
  exact Bool.false_or _

/-- Witness for C9 at a concrete input: the comment batch of
`--c\nGO\nA` is non-empty, stripped, and skipped only by the comment
test. -/
theorem C9_witness :
    ("--c" : String) ≠ "" ∧ pyStrip "--c" = "--c" ∧
      skipGuard "--c" = startsDashDash "--c" :=
  C9_batches_trimmed_nonempty "--c\nGO\nA" "--c" (by decide)

/-- Claim C10: if a failing batch's rollback itself raises, the loop
aborts right there with that exception — the error value does not
depend on the remaining batches, which are never attempted — and at
program level the run ends through the generic top-level handler:
fallback instructions, no completed banner, no `conn.close()`. -/
theorem C10_rollback_escape :
    (∀ (conn : Conn) (i : Nat) (b : String) (rest : List String) (st : RunState) (e e2 : String),
      skipGuard b = false →
      conn.execOutcome i b = some e →
      conn.rollbackOutcome i b = some e2 →
      execLoop conn i (b :: rest) st =
        Except.error (e2,
          { results := st.results ++ [{ index := i, status := Status.failed e }],
            commits := st.commits, rollbacks := st.rollbacks + 1 })) ∧
    (∀ (env : Env) (content e : String) (st : RunState),
      env.pyodbcAvailable = true →
      env.connectOutcome = none →
      env.readOutcome = Except.ok content →
      runBatches env.conn (splitBatches content) = Except.error (e, st) →
      (runMigration env).fallbackPrinted = true ∧
      (runMigration env).completedBanner = false ∧
      (runMigration env).connClosed = false ∧
      (runMigration env).run = st) := by
  constructor
  · intro conn i b rest st e e2 hskip hexec hrb
    rw [execLoop_cons]
    have hstep : execStep conn i b st =
        Except.error (e2,
          { results := st.results ++ [{ index := i, status := Status.failed e }],
            commits := st.commits, rollbacks := st.rollbacks + 1 }) := by
      simp [execStep, hskip, hexec, rollbackAfterFail, hrb]
    rw [hstep]
  · intro env content e st hpy hco hread hrun
    simp [runMigration, hpy, hco, hread, hrun]

/-- Witness for C10 at a concrete input: one failing batch with a
raising rollback, then a second batch that never runs; the whole
program ends on the fallback path. -/
theorem C10_witness :
    execLoop connRollbackBoom 1 ["X", "Y"] initState =
      Except.error ("rb boom",
        { results := [{ index := 1, status := Status.failed "boom" }],
          commits := 0, rollbacks := 1 }) ∧
    (runMigration envRollbackBoom).fallbackPrinted = true ∧
    (runMigration envRollbackBoom).completedBanner = false ∧
    (runMigration envRollbackBoom).connClosed = false := by
  constructor
  · have h1 := C10_rollback_escape.1 connRollbackBoom 1 "X" ["Y"] initState "boom" "rb boom"
      (by decide) rfl rfl
    simpa [initState] using h1
  · have h2 := C10_rollback_escape.2 envRollbackBoom "X" "rb boom"
      { results := [{ index := 1, status := Status.failed "boom" }],
        commits := 0, rollbacks := 1 }
      rfl rfl rfl (by decide)
    exact ⟨h2.1, h2.2.1, h2.2.2.1⟩

end Migration
